import Mathlib

unseal Rat.add Rat.sub Rat.mul Rat.inv Rat.ofScientific

/-!
Shallow embedding of the structure-inference engine in
`app/outline_extractor.py` (class `PDFOutlineExtractor`), together with
theorems about its title identification, heading classification,
normalization, filtering/deduplication, ordering and error handling.

Modelling conventions:
* Python strings are Lean `String`s; the Python character classes and
  `str` methods used by the code (`\s`, `\d`, `\w`, `lower`, `istitle`,
  `isupper`, `strip`, `split`) are modelled with ASCII semantics.
* Font sizes and coordinates are rationals.
* `re.match` anchoring, greediness and the backtracking corner cases of
  the six heading patterns are reproduced exactly on `List Char`.
* Fallible code (`analyze_document_structure` on an empty document, the
  document source) is modelled with `Option` / `Except`.
-/

/-- Python whitespace (`str.split`, `str.strip`, regex `\s`), ASCII model. -/
def isPySpace (c : Char) : Bool :=
  c == ' ' || c == '\t' || c == '\n' || c == '\r' || c == '\x0b' || c == '\x0c'

/-- Regex `\d`, ASCII model. -/
def isPyDigit (c : Char) : Bool := c.isDigit

/-- Regex `\w` (ASCII model): alphanumeric or underscore. -/
def isPyWordChar (c : Char) : Bool := c.isAlphanum || c == '_'

/-- The characters removed by `str.strip('"\'')`. -/
def isQuoteChar (c : Char) : Bool := c == '"' || c == '\''

/-- `str.strip()` on a character list. -/
def pyStripList (cs : List Char) : List Char :=
  ((cs.dropWhile isPySpace).reverse.dropWhile isPySpace).reverse

/-- `str.strip()`. -/
def pyStrip (s : String) : String := String.mk (pyStripList s.data)

/-- `str.split()`: split on whitespace runs, dropping empty pieces. -/
def pySplit (s : String) : List String :=
  ((s.data.splitOnP isPySpace).filter (fun w => w ≠ [])).map String.mk

/-- `' '.join(s.split())`: whitespace collapsing. -/
def collapseWS (s : String) : String := String.intercalate " " (pySplit s)

/-- `str.lower()` (ASCII model). -/
def pyLower (s : String) : String := String.mk (s.data.map Char.toLower)

/-- `str.istitle()` helper: walks the string tracking whether the previous
character was cased and whether a cased character has been seen. -/
def pyIsTitleAux : List Char → Bool → Bool → Bool
  | [], _, seenCased => seenCased
  | c :: rest, prevCased, seenCased =>
    if c.isUpper then !prevCased && pyIsTitleAux rest true true
    else if c.isLower then prevCased && pyIsTitleAux rest true true
    else pyIsTitleAux rest false seenCased

/-- `str.istitle()` (ASCII model): uppercase letters only follow uncased
characters, lowercase letters only follow cased ones, and at least one
cased character occurs. -/
def pyIsTitle (cs : List Char) : Bool := pyIsTitleAux cs false false

/-- `str.isupper()` (ASCII model): at least one cased character and no
lowercase character. -/
def pyIsUpper (cs : List Char) : Bool :=
  cs.any (fun c => c.isUpper || c.isLower) && cs.all (fun c => !c.isLower)

/-- Python `in` on strings: substring containment. -/
def hasSubstr (pat : List Char) : List Char → Bool
  | [] => pat.isPrefixOf []
  | c :: rest => pat.isPrefixOf (c :: rest) || hasSubstr pat rest

/-- Greedy `\d+` at the head of the input: requires at least one digit and
returns the input after the maximal digit run. -/
def dropDigits1 (cs : List Char) : Option (List Char) :=
  match cs with
  | c :: rest => if isPyDigit c then some (rest.dropWhile isPyDigit) else none
  | [] => none

/-- Tail of regex `\s+.+` after its first whitespace character was consumed:
the next character is either matched by `.` (any character but a newline)
or is further whitespace consumed by the backtracking `\s+`. -/
def wsThenAnyTail : List Char → Bool
  | [] => false
  | c :: rest => c != '\n' || (isPySpace c && wsThenAnyTail rest)

/-- Regex `\s+.+` anchored at the head of the input. -/
def wsPlusThenAny (cs : List Char) : Bool :=
  match cs with
  | c :: rest => isPySpace c && wsThenAnyTail rest
  | [] => false

/-- Case-insensitive literal prefix; `pat` is given in lowercase. Returns
the remaining input on success. -/
def ciStripPrefix : List Char → List Char → Option (List Char)
  | [], cs => some cs
  | _ :: _, [] => none
  | p :: ps, c :: cs => if c.toLower == p then ciStripPrefix ps cs else none

/-- Greedy `\s+` at the head of the input (at least one whitespace char). -/
def wsPlus (cs : List Char) : Option (List Char) :=
  match cs with
  | c :: rest => if isPySpace c then some (rest.dropWhile isPySpace) else none
  | [] => none

/-- Regex `\d+.+` anchored at the head of the input: a digit run of length
at least two lets the final `.` match the last digit (digits are never
newlines); a run of length one needs a following non-newline character. -/
def digitsThenAny : List Char → Bool
  | c :: d :: _ =>
    if isPyDigit c then (if isPyDigit d then true else d != '\n') else false
  | _ => false

/-- Regex `^\d+\.\s+.+` : numbered `N. Title` heading. -/
def matchP1 (cs : List Char) : Bool :=
  match dropDigits1 cs with
  | some ('.' :: rest) => wsPlusThenAny rest
  | _ => false

/-- Regex `^\d+\.\d+\s+.+` : numbered `N.N Title` heading. -/
def matchP2 (cs : List Char) : Bool :=
  match dropDigits1 cs with
  | some ('.' :: rest) =>
    match dropDigits1 rest with
    | some r2 => wsPlusThenAny r2
    | none => false
  | _ => false

/-- Regex `^\d+\.\d+\.\d+\s+.+` : numbered `N.N.N Title` heading. -/
def matchP3 (cs : List Char) : Bool :=
  match dropDigits1 cs with
  | some ('.' :: rest) =>
    match dropDigits1 rest with
    | some ('.' :: rest2) =>
      match dropDigits1 rest2 with
      | some r3 => wsPlusThenAny r3
      | none => false
    | _ => false
  | _ => false

/-- Regex `^Chapter\s+\d+.+` with `re.IGNORECASE`. -/
def matchChapter (cs : List Char) : Bool :=
  match ciStripPrefix "chapter".data cs with
  | some r =>
    match wsPlus r with
    | some r2 => digitsThenAny r2
    | none => false
  | none => false

/-- Regex `^Section\s+\d+.+` with `re.IGNORECASE`. -/
def matchSection (cs : List Char) : Bool :=
  match ciStripPrefix "section".data cs with
  | some r =>
    match wsPlus r with
    | some r2 => digitsThenAny r2
    | none => false
  | none => false

/-- Regex `^Appendix\s+[A-Z].+` with `re.IGNORECASE` (the class then matches
any ASCII letter). -/
def matchAppendix (cs : List Char) : Bool :=
  match ciStripPrefix "appendix".data cs with
  | some r =>
    match wsPlus r with
    | some (c :: d :: _) => c.isAlpha && d != '\n'
    | _ => false
  | none => false

/-- The six `heading_patterns`, first match wins (a disjunction, since the
scoring loop breaks after the first hit). -/
def matchesHeadingPattern (cs : List Char) : Bool :=
  matchP1 cs || matchP2 cs || matchP3 cs ||
    matchChapter cs || matchSection cs || matchAppendix cs

/-- Python `$` matches at the end of the string or just before one final
newline; both readings of the input are produced. -/
def dollarForms (cs : List Char) : List (List Char) :=
  match cs.getLast? with
  | some c => if c == '\n' then [cs, cs.dropLast] else [cs]
  | none => [cs]

/-- Regex `^\d+$` (skip pattern: bare numbers). -/
def skipJustNumber (cs : List Char) : Bool :=
  (dollarForms cs).any (fun l => !l.isEmpty && l.all isPyDigit)

/-- Regex `^page\s+\d+` with `re.IGNORECASE` (skip pattern: page numbers). -/
def skipPageNumber (cs : List Char) : Bool :=
  match ciStripPrefix "page".data cs with
  | some r =>
    match wsPlus r with
    | some (c :: _) => isPyDigit c
    | _ => false
  | none => false

/-- Regex `^\w{1,3}$` (skip pattern: very short words). -/
def skipShortWord (cs : List Char) : Bool :=
  (dollarForms cs).any (fun l =>
    !l.isEmpty && decide (l.length ≤ 3) && l.all isPyWordChar)

/-- Regex `^[^\w\s]+$` (skip pattern: punctuation only). -/
def skipPunctOnly (cs : List Char) : Bool :=
  (dollarForms cs).any (fun l =>
    !l.isEmpty && l.all (fun c => !isPyWordChar c && !isPySpace c))

/-- Regex `^\d+\.?\s*$` (title filter: purely a number). -/
def matchPureNumber (cs : List Char) : Bool :=
  match cs with
  | c :: rest =>
    if isPyDigit c then
      let r := rest.dropWhile isPyDigit
      let r2 := match r with
        | '.' :: t => t
        | t => t
      r2.all isPySpace
    else false
  | [] => false

/-- Regex `^\d+\.\s+` (level rule for H1). -/
def matchH1Pattern (cs : List Char) : Bool :=
  match dropDigits1 cs with
  | some ('.' :: c :: _) => isPySpace c
  | _ => false

/-- Regex `^\d+\.\d+\s+` (level rule for H2). -/
def matchH2Pattern (cs : List Char) : Bool :=
  match dropDigits1 cs with
  | some ('.' :: rest) =>
    match dropDigits1 rest with
    | some (d :: _) => isPySpace d
    | _ => false
  | _ => false

/-- Regex `^\d+\.\d+\.\d+\s+` (level rule for H3). -/
def matchH3Pattern (cs : List Char) : Bool :=
  match dropDigits1 cs with
  | some ('.' :: rest) =>
    match dropDigits1 rest with
    | some ('.' :: rest2) =>
      match dropDigits1 rest2 with
      | some (d :: _) => isPySpace d
      | _ => false
    | _ => false
  | _ => false

/-- Regex `^\d+\.` (numbered-section test in `clean_heading_text`). -/
def matchNumDot (cs : List Char) : Bool :=
  match dropDigits1 cs with
  | some ('.' :: _) => true
  | _ => false

/-- One formatted line as produced by `extract_text_with_formatting`. -/
structure FormattedLine where
  text : String
  page : Nat
  font : String
  size : ℚ
  is_bold : Bool
  bbox : ℚ × ℚ × ℚ × ℚ
  line_count : Nat
deriving DecidableEq

/-- One outline entry `{level, text, page}`. -/
structure Heading where
  level : String
  text : String
  page : Nat
deriving DecidableEq

/-- Result of `analyze_document_structure`; `size_thresholds` is the tuple
`(h1, h2, h3)`. -/
structure StructureInfo where
  body_text_size : ℚ
  size_thresholds : ℚ × ℚ × ℚ
  all_sizes : List ℚ
deriving DecidableEq

/-- Result of `extract_outline`. -/
structure OutlineResult where
  title : String
  outline : List Heading
deriving DecidableEq

/-- First-occurrence-wins maximum-count scan, matching
`Counter(sizes).most_common(1)[0][0]` (the counter iterates keys in first
insertion order and `most_common` sorts stably by descending count). -/
def modeAux (orig : List ℚ) : List ℚ → ℚ → ℚ
  | [], best => best
  | x :: rest, best =>
    if orig.count best < orig.count x then modeAux orig rest x
    else modeAux orig rest best

/-- Descending order on sizes, for `sorted(set(sizes), reverse=True)`. -/
def descLE (a b : ℚ) : Prop := b ≤ a

instance : DecidableRel descLE := fun a b => inferInstanceAs (Decidable (b ≤ a))

/-- `analyze_document_structure`; `none` models the `IndexError` raised by
`most_common(1)[0]` on an empty document. -/
def analyze_document_structure (lines : List FormattedLine) : Option StructureInfo :=
  match lines with
  | [] => none
  | l :: ls =>
    let body := modeAux (l.size :: ls.map (fun x => x.size)) (ls.map (fun x => x.size)) l.size
    some { body_text_size := body
           size_thresholds := (body * 1.5, body * 1.3, body * 1.15)
           all_sizes := List.insertionSort descLE ((l.size :: ls.map (fun x => x.size)).dedup) }

/-- Sort key of `identify_title`: `(-size, y0)` ascending, as a total
preorder (a stable insertion sort with it reproduces Python's stable
`list.sort`). -/
def titleSortLE (a b : FormattedLine) : Prop :=
  b.size < a.size ∨ (a.size = b.size ∧ a.bbox.2.1 ≤ b.bbox.2.1)

instance : DecidableRel titleSortLE := fun a b =>
  inferInstanceAs (Decidable (b.size < a.size ∨ (a.size = b.size ∧ a.bbox.2.1 ≤ b.bbox.2.1)))

/-- The page-1 lines sorted by `(-size, y0)`. -/
def sortedFirstPage (formatted_text : List FormattedLine) : List FormattedLine :=
  List.insertionSort titleSortLE (formatted_text.filter (fun l => l.page == 1))

/-- Title-candidate collection over the top-10 window of the sorted
page-1 lines. -/
def titleCandidates (formatted_text : List FormattedLine) : List (String × ℚ) :=
  ((sortedFirstPage formatted_text).take 10).filterMap (fun item =>
    let text := pyStrip item.text
    if 20 ≤ text.length ∧ text.length ≤ 200 ∧ (14 : ℚ) ≤ item.size ∧
        matchPureNumber text.data = false ∧
        (( "page".data).isPrefixOf (pyLower text).data) = false ∧
        2 ≤ (pySplit text).length then
      some (text, item.size)
    else none)

/-- Python `max(candidates, key=lambda x: x[1])`: scans left to right and
keeps the first maximum. -/
def maxBySize : List (String × ℚ) → (String × ℚ) → (String × ℚ)
  | [], best => best
  | c :: cs, best => maxBySize cs (if best.2 < c.2 then c else best)

/-- `re.sub(r'[^\w\s\-\:\.]', ' ', title)` followed by whitespace
collapsing. -/
def cleanTitle (s : String) : String :=
  collapseWS (String.mk (s.data.map (fun c =>
    if isPyWordChar c || isPySpace c || c == '-' || c == ':' || c == '.' then c else ' ')))

/-- `identify_title`. -/
def identify_title (formatted_text : List FormattedLine) : String :=
  if formatted_text.filter (fun l => l.page == 1) = [] then "Untitled Document"
  else
    match titleCandidates formatted_text with
    | c :: cs => cleanTitle (maxBySize cs c).1
    | [] =>
      let meaningful := ((sortedFirstPage formatted_text).take 5).filterMap (fun item =>
        let text := pyStrip item.text
        if 5 < text.length ∧ 2 ≤ (pySplit text).length then some text else none)
      match meaningful with
      | [] => "Untitled Document"
      | t :: ts =>
        let combined := String.intercalate " " ((t :: ts).take 2)
        if combined.length ≤ 200 then collapseWS combined else "Untitled Document"

/-- The fixed `heading_keywords` list. -/
def heading_keywords : List String :=
  ["introduction", "overview", "background", "methodology", "results",
   "conclusion", "references", "appendix", "summary", "abstract",
   "table of contents", "revision history", "glossary", "index"]

/-- Indicator 1: font size against the `h3` threshold and the body size. -/
def sizeScore (item : FormattedLine) (info : StructureInfo) : Nat :=
  if info.size_thresholds.2.2 < item.size then 2
  else if info.body_text_size < item.size then 1
  else 0

/-- Indicator 2: bold formatting. -/
def boldScore (item : FormattedLine) : Nat := if item.is_bold then 2 else 0

/-- Indicator 3: numbered section patterns. -/
def patternScore (text : String) : Nat :=
  if matchesHeadingPattern text.data then 3 else 0

/-- Indicator 4: heading keywords contained in the lowercased text. -/
def keywordScore (text : String) : Nat :=
  if heading_keywords.any (fun kw => hasSubstr kw.data (pyLower text).data) then 1 else 0

/-- Indicator 5: title case (short) or all caps (medium length). -/
def caseScore (text : String) : Nat :=
  if pyIsTitle text.data ∧ (pySplit text).length ≤ 8 then 1
  else if pyIsUpper text.data ∧ 5 ≤ text.length ∧ text.length ≤ 50 then 2
  else 0

/-- Indicator 6: short, meaningful text. -/
def lengthScore (text : String) : Nat :=
  if 5 ≤ text.length ∧ text.length ≤ 100 ∧ (pySplit text).length ≤ 10 then 1 else 0

/-- The additive indicator score of `is_likely_heading` (the `indicators`
variable just before the `>= 3` test). -/
def headingScore (item : FormattedLine) (info : StructureInfo) : Nat :=
  sizeScore item info + boldScore item + patternScore (pyStrip item.text) +
    keywordScore (pyStrip item.text) + caseScore (pyStrip item.text) +
    lengthScore (pyStrip item.text)

/-- `is_likely_heading`. -/
def is_likely_heading (item : FormattedLine) (info : StructureInfo) : Bool :=
  let text := pyStrip item.text
  if text.length < 3 ∨ 300 < text.length then false
  else if 20 < (pySplit text).length then false
  else if skipJustNumber text.data ∨ skipPageNumber text.data ∨
      skipShortWord text.data ∨ skipPunctOnly text.data then false
  else decide (3 ≤ headingScore item info)

/-- `determine_heading_level`. -/
def determine_heading_level (item : FormattedLine) (info : StructureInfo) : String :=
  let text := pyStrip item.text
  if matchH1Pattern text.data then "H1"
  else if matchH2Pattern text.data then "H2"
  else if matchH3Pattern text.data then "H3"
  else if info.size_thresholds.1 ≤ item.size then "H1"
  else if info.size_thresholds.2.1 ≤ item.size then "H2"
  else "H3"

/-- The trailing punctuation removed by `clean_heading_text`. -/
def isTrailPunct (c : Char) : Bool :=
  c == '.' || c == ',' || c == ':' || c == ';' || c == '!' || c == '?'

/-- `re.sub(r'[.,:;!?]+$', '', t)`: drops the maximal trailing punctuation
run (the input here is already whitespace-collapsed, so the before-final-
newline reading of `$` cannot arise). -/
def dropTrailingPunct (cs : List Char) : List Char :=
  (cs.reverse.dropWhile isTrailPunct).reverse

/-- `str.strip('"\'')`: drops every leading and trailing quote character. -/
def stripQuotes (cs : List Char) : List Char :=
  ((cs.dropWhile isQuoteChar).reverse.dropWhile isQuoteChar).reverse

/-- `clean_heading_text`. -/
def clean_heading_text (text : String) : String :=
  let t1 := collapseWS text
  let t2 := if matchNumDot t1.data then t1 else String.mk (dropTrailingPunct t1.data)
  String.mk (stripQuotes t2.data)

/-- The stop-word set of `filter_and_deduplicate_headings`, exactly as in
the code. -/
def stop_words : List String :=
  ["and", "or", "the", "of", "in", "on", "at", "to", "for", "with", "by"]

/-- The loop of `filter_and_deduplicate_headings`; `seen` is the
`seen_texts` set (as a list of the lowercased, stripped texts added so
far). -/
def filterDedupAux : List Heading → List String → List Heading
  | [], _ => []
  | h :: rest, seen =>
    let t := pyStrip (pyLower h.text)
    if t ∈ stop_words then filterDedupAux rest seen
    else if t ∈ seen then filterDedupAux rest seen
    else h :: filterDedupAux rest (t :: seen)

/-- `filter_and_deduplicate_headings`. -/
def filter_and_deduplicate_headings (headings : List Heading) : List Heading :=
  filterDedupAux headings []

/-- Sort key of `classify_headings`: `(page, text)` ascending, as a total
preorder. -/
def headingSortLE (a b : Heading) : Prop :=
  a.page < b.page ∨ (a.page = b.page ∧ a.text ≤ b.text)

instance : DecidableRel headingSortLE := fun a b =>
  inferInstanceAs (Decidable (a.page < b.page ∨ (a.page = b.page ∧ a.text ≤ b.text)))

/-- `classify_headings`; `none` models the exception propagated out of
`analyze_document_structure` on an empty document. -/
def classify_headings (formatted_text : List FormattedLine) : Option (List Heading) :=
  (analyze_document_structure formatted_text).map (fun structure_info =>
    let potential_headings := formatted_text.filterMap (fun item =>
      if is_likely_heading item structure_info then
        let level := determine_heading_level item structure_info
        let clean_text := clean_heading_text item.text
        if clean_text ≠ "" then some { level := level, text := clean_text, page := item.page }
        else none
      else none)
    List.insertionSort headingSortLE (filter_and_deduplicate_headings potential_headings))

/-- `extract_outline`: the `src` argument is the outcome of the external
`extract_text_with_formatting` call (`Except.error` models a raised
document-read failure); every pipeline failure is caught and converted to
the error sentinel. -/
def extract_outline (src : Except String (List FormattedLine)) : OutlineResult :=
  match src with
  | Except.error _ => { title := "Error Processing Document", outline := [] }
  | Except.ok formatted_text =>
    if formatted_text = [] then { title := "Empty Document", outline := [] }
    else
      match classify_headings formatted_text with
      | none => { title := "Error Processing Document", outline := [] }
      | some headings => { title := identify_title formatted_text, outline := headings }

/-! Definitions taken from the specification's words (for comparison
with the code) and concrete example inputs. -/

/-- The stop-word set as the specification states it (§4.5), which also
contains `"a"`; the code's `stop_words` set does not. -/
def spec_stop_words : List String :=
  ["a", "and", "or", "the", "of", "in", "on", "at", "to", "for", "with", "by"]

/-- The title fallback as claimed: up to the first two qualifying lines
drawn from the top-10 window of the sorted page-1 lines, returned when the
combined string is at most 200 characters after whitespace collapsing. -/
def titleFallbackClaim (formatted_text : List FormattedLine) : String :=
  let meaningful := ((sortedFirstPage formatted_text).take 10).filterMap (fun item =>
    let text := pyStrip item.text
    if 5 < text.length ∧ 2 ≤ (pySplit text).length then some text else none)
  match meaningful.take 2 with
  | [] => "Untitled Document"
  | ts =>
    let combined := collapseWS (String.intercalate " " ts)
    if combined.length ≤ 200 then combined else "Untitled Document"

/-- The title fallback as the code implements it: up to the first two
qualifying lines drawn from the top-5 window, length-checked before
whitespace collapsing. -/
def titleFallbackAmended (formatted_text : List FormattedLine) : String :=
  let meaningful := ((sortedFirstPage formatted_text).take 5).filterMap (fun item =>
    let text := pyStrip item.text
    if 5 < text.length ∧ 2 ≤ (pySplit text).length then some text else none)
  match meaningful.take 2 with
  | [] => "Untitled Document"
  | ts =>
    let combined := String.intercalate " " ts
    if combined.length ≤ 200 then collapseWS combined else "Untitled Document"

/-- The first character of a list satisfies `p` (false when empty). -/
def headSat (p : Char → Bool) : List Char → Bool
  | [] => false
  | c :: _ => p c

/-- `t` neither begins nor ends with a quote character. -/
def noEdgeQuote (t : String) : Bool :=
  !headSat isQuoteChar t.data && !headSat isQuoteChar t.data.reverse

/-- A body-text line (size 10, not bold) that scores no indicators. -/
def exBody (t : String) : FormattedLine :=
  { text := t, page := 1, font := "Body", size := 10, is_bold := false,
    bbox := (0, 0, 0, 0), line_count := 12 }

/-- A large bold line whose raw text `"A":` cleans to `A`. -/
def exA : FormattedLine :=
  { text := "\"A\":", page := 1, font := "Head", size := 20, is_bold := true,
    bbox := (0, 0, 0, 0), line_count := 1 }

/-- Document whose only heading cleans to the single letter `A`. -/
def ex1 : List FormattedLine :=
  [exBody "the quick brown fox jumps over everything else here now ok yes",
   exA,
   exBody "the quick brown fox jumps over everything else here now ok yes"]

/-- Page-1 document with no title candidate whose only fallback-qualifying
line sits at position 6 of the sorted order: inside the top-10 window the
claim describes, outside the top-5 window the code uses. -/
def ex2 : List FormattedLine :=
  [{ text := "abcd", page := 1, font := "F", size := 13, is_bold := false,
     bbox := (0, 0, 0, 0), line_count := 1 },
   { text := "abcd", page := 1, font := "F", size := 12.9, is_bold := false,
     bbox := (0, 0, 0, 0), line_count := 1 },
   { text := "abcd", page := 1, font := "F", size := 12.8, is_bold := false,
     bbox := (0, 0, 0, 0), line_count := 1 },
   { text := "abcd", page := 1, font := "F", size := 12.7, is_bold := false,
     bbox := (0, 0, 0, 0), line_count := 1 },
   { text := "abcd", page := 1, font := "F", size := 12.6, is_bold := false,
     bbox := (0, 0, 0, 0), line_count := 1 },
   { text := "Hello World Again", page := 1, font := "F", size := 12.5, is_bold := false,
     bbox := (0, 0, 0, 0), line_count := 3 }]

/-- Single-line document for evaluating `analyze_document_structure`. -/
def ex8 : List FormattedLine := [exBody "hello there friend of mine today"]

/-- Page-1 line that passes every title-candidate criterion but whose
cleaning replaces every character with a space. -/
def ex9 : List FormattedLine :=
  [{ text := "!!!!!!!!!! @@@@@@@@@@", page := 1, font := "F", size := 20,
     is_bold := false, bbox := (0, 0, 0, 0), line_count := 2 }]

/-- The heading produced by `ex1`. -/
def exAHeading : Heading := { level := "H1", text := "A", page := 1 }

/-- The line of the pattern-precedence scenario: text `2.3 Data Collection`,
size exactly the document's body-text size, not bold, on page 4. -/
def dataCollectionLine (info : StructureInfo) (f : String)
    (bb : ℚ × ℚ × ℚ × ℚ) (n : Nat) : FormattedLine :=
  { text := "2.3 Data Collection", page := 4, font := f,
    size := info.body_text_size, is_bold := false, bbox := bb, line_count := n }

instance : IsTotal Heading headingSortLE :=
  ⟨by
    intro a b
    unfold headingSortLE
    rcases Nat.lt_trichotomy a.page b.page with h | h | h
    · exact Or.inl (Or.inl h)
    · rcases le_total a.text b.text with ht | ht
      · exact Or.inl (Or.inr ⟨h, ht⟩)
      · exact Or.inr (Or.inr ⟨h.symm, ht⟩)
    · exact Or.inr (Or.inl h)⟩

instance : IsTrans Heading headingSortLE :=
  ⟨by
    intro a b c hab hbc
    unfold headingSortLE at *
    rcases hab with h1 | ⟨h1, t1⟩ <;> rcases hbc with h2 | ⟨h2, t2⟩
    · exact Or.inl (lt_trans h1 h2)
    · exact Or.inl (h2 ▸ h1)
    · exact Or.inl (h1 ▸ h2)
    · exact Or.inr ⟨h1.trans h2, le_trans t1 t2⟩⟩

/-! Helper lemmas -/

theorem filterDedupAux_sublist (hs : List Heading) (seen : List String) :
    (filterDedupAux hs seen).Sublist hs := by
  induction hs generalizing seen with
  | nil => simp [filterDedupAux]
  | cons h rest ih =>
    unfold filterDedupAux
    dsimp only
    split_ifs with h1 h2
    · exact (ih seen).cons h
    · exact (ih seen).cons h
    · exact (ih _).cons₂ h

theorem mem_filterDedupAux_stop (hs : List Heading) (seen : List String)
    (h : Heading) (hmem : h ∈ filterDedupAux hs seen) :
    pyStrip (pyLower h.text) ∉ stop_words := by
  induction hs generalizing seen with
  | nil => simp [filterDedupAux] at hmem
  | cons h0 rest ih =>
    unfold filterDedupAux at hmem
    dsimp only at hmem
    split_ifs at hmem with h1 h2
    · exact ih seen hmem
    · exact ih seen hmem
    · rcases List.mem_cons.mp hmem with rfl | hmem
      · exact h1
      · exact ih _ hmem

theorem mem_filterDedupAux_seen (hs : List Heading) (seen : List String)
    (h : Heading) (hmem : h ∈ filterDedupAux hs seen) :
    pyStrip (pyLower h.text) ∉ seen := by
  induction hs generalizing seen with
  | nil => simp [filterDedupAux] at hmem
  | cons h0 rest ih =>
    unfold filterDedupAux at hmem
    dsimp only at hmem
    split_ifs at hmem with h1 h2
    · exact ih seen hmem
    · exact ih seen hmem
    · rcases List.mem_cons.mp hmem with rfl | hmem
      · exact h2
      · intro hin
        exact ih _ hmem (List.mem_cons_of_mem _ hin)

theorem filterDedupAux_pairwise (hs : List Heading) (seen : List String) :
    (filterDedupAux hs seen).Pairwise
      (fun a b => pyStrip (pyLower a.text) ≠ pyStrip (pyLower b.text)) := by
  induction hs generalizing seen with
  | nil => simp [filterDedupAux]
  | cons h0 rest ih =>
    unfold filterDedupAux
    dsimp only
    split_ifs with h1 h2
    · exact ih seen
    · exact ih seen
    · refine List.Pairwise.cons ?_ (ih _)
      intro b hb heq
      exact mem_filterDedupAux_seen rest _ b hb (heq ▸ List.mem_cons_self _ _)

theorem modeAux_mem (orig l : List ℚ) (best : ℚ) :
    modeAux orig l best = best ∨ modeAux orig l best ∈ l := by
  induction l generalizing best with
  | nil => exact Or.inl rfl
  | cons x rest ih =>
    unfold modeAux
    split_ifs
    · rcases ih x with h | h
      · refine Or.inr ?_
        rw [h]
        exact List.mem_cons_self _ _
      · exact Or.inr (List.mem_cons_of_mem _ h)
    · rcases ih best with h | h
      · exact Or.inl h
      · exact Or.inr (List.mem_cons_of_mem _ h)

theorem modeAux_count (orig l : List ℚ) (best : ℚ) :
    orig.count best ≤ orig.count (modeAux orig l best) ∧
      ∀ x ∈ l, orig.count x ≤ orig.count (modeAux orig l best) := by
  induction l generalizing best with
  | nil => exact ⟨le_refl _, by simp⟩
  | cons y rest ih =>
    unfold modeAux
    split_ifs with hlt
    · obtain ⟨h1, h2⟩ := ih y
      refine ⟨le_trans (le_of_lt hlt) h1, ?_⟩
      intro x hx
      rcases List.mem_cons.mp hx with rfl | hx
      · exact h1
      · exact h2 x hx
    · obtain ⟨h1, h2⟩ := ih best
      refine ⟨h1, ?_⟩
      intro x hx
      rcases List.mem_cons.mp hx with rfl | hx
      · exact le_trans (le_of_not_lt hlt) h1
      · exact h2 x hx

theorem headSat_dropWhile (p : Char → Bool) (l : List Char) :
    headSat p (l.dropWhile p) = false := by
  induction l with
  | nil => rfl
  | cons c rest ih =>
    cases hc : p c with
    | true => simpa [List.dropWhile_cons, hc] using ih
    | false => simp [List.dropWhile_cons, hc, headSat]

theorem headSat_stripQuotes (l : List Char) :
    headSat isQuoteChar (stripQuotes l) = false := by
  unfold stripQuotes
  have hsuff : (l.dropWhile isQuoteChar).reverse.dropWhile isQuoteChar <:+
      (l.dropWhile isQuoteChar).reverse := List.dropWhile_suffix _
  have hpre : ((l.dropWhile isQuoteChar).reverse.dropWhile isQuoteChar).reverse <+:
      l.dropWhile isQuoteChar := by
    have h2 := List.reverse_prefix.mpr hsuff
    rwa [List.reverse_reverse] at h2
  obtain ⟨t, ht⟩ := hpre
  cases hB : ((l.dropWhile isQuoteChar).reverse.dropWhile isQuoteChar).reverse with
  | nil => rfl
  | cons c cs =>
    rw [hB] at ht
    have hhead := headSat_dropWhile isQuoteChar l
    rw [← ht] at hhead
    simpa [headSat] using hhead

theorem headSat_stripQuotes_reverse (l : List Char) :
    headSat isQuoteChar (stripQuotes l).reverse = false := by
  unfold stripQuotes
  rw [List.reverse_reverse]
  exact headSat_dropWhile _ _

theorem classify_headings_shape (lines : List FormattedLine) (hs : List Heading)
    (h : classify_headings lines = some hs) :
    ∃ potential, hs = List.insertionSort headingSortLE
      (filter_and_deduplicate_headings potential) := by
  unfold classify_headings at h
  cases ha : analyze_document_structure lines with
  | none => rw [ha] at h; simp at h
  | some info =>
    rw [ha] at h
    simp only [Option.map_some'] at h
    exact ⟨_, (Option.some_injective _ h).symm⟩

/-! Claim theorems -/

/-- C10: `filter_and_deduplicate_headings` returns an order-preserving
subsequence of its input: every retained heading is an element of the
input with its `level`, `text` and `page` fields unchanged, and no new
headings are introduced. -/
theorem c10_filter_sublist (headings : List Heading) :
    (filter_and_deduplicate_headings headings).Sublist headings :=
  filterDedupAux_sublist headings []

/-- C6: `extract_outline` short-circuits a source that yields zero lines to
the `"Empty Document"` sentinel even though the Structure Analyzer is
undefined (`none`) on empty input, and converts every raised source
failure to the `"Error Processing Document"` sentinel with an empty
outline — no partial result. -/
theorem c6_sentinels :
    extract_outline (Except.ok []) = { title := "Empty Document", outline := [] } ∧
    analyze_document_structure [] = none ∧
    ∀ e : String, extract_outline (Except.error e) =
      { title := "Error Processing Document", outline := [] } :=
  ⟨rfl, rfl, fun _ => rfl⟩

/-- C9: `identify_title` can return the empty string, not the
`"Untitled Document"` sentinel: the page-1 line `"!!!!!!!!!! @@@@@@@@@@"`
(21 characters, two words, size 20) passes every title-candidate
criterion, and cleaning replaces every character with a space, so
whitespace collapsing yields `""`. -/
theorem c9_empty_title :
    identify_title ex9 = "" ∧ identify_title ex9 ≠ "Untitled Document" := by
  constructor <;> decide

/-- C3 counterexample: `clean_heading_text` on the doubly-quoted input
`""Heading""` returns the bare `Heading`, not the singly-quoted
`"Heading"` the claim predicts: the quote stripping removes every layer,
not exactly one. -/
theorem c3_one_layer_counterexample :
    clean_heading_text "\"\"Heading\"\"" = "Heading" ∧
    clean_heading_text "\"\"Heading\"\"" ≠ "\"Heading\"" := by
  constructor <;> decide

/-- C3 (amended): `clean_heading_text` strips every layer of leading and
trailing quote characters: its result never begins or ends with a quote
character, and the doubly-wrapped `""Heading""` comes back as the bare
`Heading`. -/
theorem c3_strips_all_quotes :
    (∀ s : String, noEdgeQuote (clean_heading_text s) = true) ∧
    clean_heading_text "\"\"Heading\"\"" = "Heading" := by
  constructor
  · intro s
    unfold clean_heading_text noEdgeQuote
    simp [headSat_stripQuotes, headSat_stripQuotes_reverse]
  · decide

/-- C1 counterexample: the document `ex1` puts the heading `A` (case-folded
trimmed text `a`, a member of the claimed stop-word set) into the final
outline: the code's stop-word set does not contain `"a"`, so a heading
cleaning to `a` is retained, contradicting the claim. -/
theorem c1_stop_word_a_retained :
    classify_headings ex1 = some [exAHeading] ∧
    pyStrip (pyLower exAHeading.text) ∈ spec_stop_words := by
  constructor <;> decide

/-- C1 (amended): no heading in the final outline has a case-folded,
trimmed text equal to a member of the code's stop-word set
`{and, or, the, of, in, on, at, to, for, with, by}` — the set does not
contain `a`, and a heading whose cleaned text is `a` is retained. -/
theorem c1_filter_law_code_set (lines : List FormattedLine) (hs : List Heading)
    (h : Heading) (hcl : classify_headings lines = some hs) (hmem : h ∈ hs) :
    pyStrip (pyLower h.text) ∉ stop_words := by
  obtain ⟨potential, rfl⟩ := classify_headings_shape lines hs hcl
  rw [List.mem_insertionSort] at hmem
  exact mem_filterDedupAux_stop potential [] h hmem

theorem c1_filter_law_code_set_witness :
    classify_headings ex1 = some [exAHeading] ∧
    exAHeading ∈ [exAHeading] ∧
    pyStrip (pyLower exAHeading.text) ∉ stop_words :=
  ⟨by decide, by decide,
    c1_filter_law_code_set ex1 [exAHeading] exAHeading (by decide) (by decide)⟩

/-- C4: the final outline returned by `classify_headings` is sorted
ascending by the key `(page, text)`, with `text` compared case-sensitively
as produced by the normalizer. -/
theorem c4_outline_sorted (lines : List FormattedLine) (hs : List Heading)
    (h : classify_headings lines = some hs) : List.Sorted headingSortLE hs := by
  obtain ⟨potential, rfl⟩ := classify_headings_shape lines hs h
  exact List.sorted_insertionSort headingSortLE _

theorem c4_outline_sorted_witness :
    classify_headings ex1 = some [exAHeading] ∧
    List.Sorted headingSortLE [exAHeading] :=
  ⟨by decide, c4_outline_sorted ex1 [exAHeading] (by decide)⟩

/-- C5: any two distinct positions of the final outline carry different
case-folded texts (deduplication is global and first occurrence wins). -/
theorem c5_dedup_law (lines : List FormattedLine) (hs : List Heading)
    (h : classify_headings lines = some hs) :
    hs.Pairwise (fun a b => pyLower a.text ≠ pyLower b.text) := by
  obtain ⟨potential, rfl⟩ := classify_headings_shape lines hs h
  have hp := filterDedupAux_pairwise potential []
  have hkey := ((List.perm_insertionSort headingSortLE
    (filter_and_deduplicate_headings potential)).pairwise_iff
      (fun hxy => Ne.symm hxy)).mpr hp
  refine hkey.imp ?_
  intro a b hne heq
  exact hne (by rw [heq])

theorem c5_dedup_law_witness :
    classify_headings ex1 = some [exAHeading] ∧
    List.Pairwise (fun a b => pyLower a.text ≠ pyLower b.text) [exAHeading] :=
  ⟨by decide, c5_dedup_law ex1 [exAHeading] (by decide)⟩

/-- C8: on a non-empty line set with positive sizes,
`analyze_document_structure` succeeds, its `body_text_size` is a
statistical mode of the sizes (a value attaining the maximal count), and
the thresholds are `(×1.5, ×1.3, ×1.15)` multiples of it satisfying
`tier1 > tier2 > tier3 > 0` strictly. -/
theorem c8_structure_analysis (lines : List FormattedLine)
    (hne : lines ≠ []) (hpos : ∀ l ∈ lines, 0 < l.size) :
    ∃ info, analyze_document_structure lines = some info ∧
      info.body_text_size ∈ lines.map (fun l => l.size) ∧
      (∀ s ∈ lines.map (fun l => l.size),
        (lines.map (fun l => l.size)).count s ≤
          (lines.map (fun l => l.size)).count info.body_text_size) ∧
      info.size_thresholds =
        (info.body_text_size * 1.5, info.body_text_size * 1.3,
          info.body_text_size * 1.15) ∧
      info.size_thresholds.2.2 < info.size_thresholds.2.1 ∧
      info.size_thresholds.2.1 < info.size_thresholds.1 ∧
      0 < info.size_thresholds.2.2 := by
  cases lines with
  | nil => exact absurd rfl hne
  | cons l ls =>
    refine ⟨_, rfl, ?_, ?_, rfl, ?_, ?_, ?_⟩
    · rcases modeAux_mem (l.size :: ls.map (fun x => x.size))
        (ls.map (fun x => x.size)) l.size with h | h
      · rw [h]; exact List.mem_cons_self _ _
      · exact List.mem_cons_of_mem _ h
    · intro s hs
      obtain ⟨h1, h2⟩ := modeAux_count (l.size :: ls.map (fun x => x.size))
        (ls.map (fun x => x.size)) l.size
      rcases List.mem_cons.mp hs with rfl | hs
      · exact h1
      · exact h2 s hs
    all_goals {
      have hbody : 0 < modeAux (l.size :: ls.map (fun x => x.size))
          (ls.map (fun x => x.size)) l.size := by
        rcases modeAux_mem (l.size :: ls.map (fun x => x.size))
          (ls.map (fun x => x.size)) l.size with h | h
        · rw [h]; exact hpos l (List.mem_cons_self _ _)
        · obtain ⟨x, hx, hxs⟩ := List.mem_map.mp h
          rw [← hxs]; exact hpos x (List.mem_cons_of_mem _ hx)
      first
      | exact mul_lt_mul_of_pos_left (by norm_num) hbody
      | exact mul_pos hbody (by norm_num)
    }

theorem c8_structure_analysis_witness :
    ex8 ≠ [] ∧ (∀ l ∈ ex8, 0 < l.size) ∧
    (∃ info, analyze_document_structure ex8 = some info ∧
      info.body_text_size ∈ ex8.map (fun l => l.size) ∧
      (∀ s ∈ ex8.map (fun l => l.size),
        (ex8.map (fun l => l.size)).count s ≤
          (ex8.map (fun l => l.size)).count info.body_text_size) ∧
      info.size_thresholds =
        (info.body_text_size * 1.5, info.body_text_size * 1.3,
          info.body_text_size * 1.15) ∧
      info.size_thresholds.2.2 < info.size_thresholds.2.1 ∧
      info.size_thresholds.2.1 < info.size_thresholds.1 ∧
      0 < info.size_thresholds.2.2) :=
  ⟨by decide, by decide, c8_structure_analysis ex8 (by decide) (by decide)⟩

/-- C2 counterexample: in `ex2` no title candidate exists and the only
fallback-qualifying line sits at sorted position 6: the claimed top-10
fallback would return `"Hello World Again"`, but `identify_title` scans
only the top-5 window and returns `"Untitled Document"`. -/
theorem c2_fallback_window_counterexample :
    titleCandidates ex2 = [] ∧
    identify_title ex2 = "Untitled Document" ∧
    titleFallbackClaim ex2 = "Hello World Again" ∧
    identify_title ex2 ≠ titleFallbackClaim ex2 :=
  ⟨by decide, by decide, by decide, by decide⟩

/-- C2 (amended): when no title candidate exists, `identify_title` falls
back to concatenating up to the first two lines drawn from the top-5
window of the `(-size, y0)`-sorted order whose text length > 5 and word
count ≥ 2, returning the whitespace-collapsed combination when the raw
concatenation is at most 200 characters (the length is checked before
collapsing), and `"Untitled Document"` otherwise. -/
theorem c2_fallback_top5 (lines : List FormattedLine)
    (h : titleCandidates lines = []) :
    identify_title lines = titleFallbackAmended lines := by
  unfold identify_title titleFallbackAmended
  split_ifs with hfp
  · simp [sortedFirstPage, hfp]
  · rw [h]
    dsimp only
    cases hm : ((sortedFirstPage lines).take 5).filterMap (fun item =>
        let text := pyStrip item.text
        if 5 < text.length ∧ 2 ≤ (pySplit text).length then some text else none) with
    | nil => rfl
    | cons t ts => rfl

theorem c2_fallback_top5_witness :
    titleCandidates ex2 = [] ∧ identify_title ex2 = titleFallbackAmended ex2 :=
  ⟨by decide, c2_fallback_top5 ex2 (by decide)⟩

/-- C7: a line `2.3 Data Collection` at body-text size, not bold, on page 4
gets +3 from the numbered-pattern rule alone, reaches an indicator score
of at least 3, is classified as a heading, and is assigned level `H2` by
the `N.N` pattern rule — regardless of the document's thresholds. -/
theorem c7_pattern_precedence (info : StructureInfo) (f : String)
    (bb : ℚ × ℚ × ℚ × ℚ) (n : Nat) :
    patternScore (pyStrip "2.3 Data Collection") = 3 ∧
    3 ≤ headingScore (dataCollectionLine info f bb n) info ∧
    is_likely_heading (dataCollectionLine info f bb n) info = true ∧
    determine_heading_level (dataCollectionLine info f bb n) info = "H2" := by
  have htext : (dataCollectionLine info f bb n).text = "2.3 Data Collection" := rfl
  have hscore : 3 ≤ headingScore (dataCollectionLine info f bb n) info := by
    unfold headingScore
    rw [htext]
    rw [show boldScore (dataCollectionLine info f bb n) = 0 from rfl]
    rw [show patternScore (pyStrip "2.3 Data Collection") = 3 from by decide]
    rw [show keywordScore (pyStrip "2.3 Data Collection") = 0 from by decide]
    rw [show caseScore (pyStrip "2.3 Data Collection") = 1 from by decide]
    rw [show lengthScore (pyStrip "2.3 Data Collection") = 1 from by decide]
    omega
  have hlik : is_likely_heading (dataCollectionLine info f bb n) info = true := by
    unfold is_likely_heading
    dsimp only
    rw [htext]
    rw [if_neg (by decide), if_neg (by decide), if_neg (by decide)]
    exact decide_eq_true hscore
  have hlev : determine_heading_level (dataCollectionLine info f bb n) info = "H2" := by
    unfold determine_heading_level
    dsimp only
    rw [htext]
    rw [if_neg (by decide), if_pos (by decide)]
  exact ⟨by decide, hscore, hlik, hlev⟩
